import Mathlib

/-!
Verification of the Smart Money personal-finance application (src/app.py).

The app stores three collections (incomes, expenses, targets) in SQLite and
computes aggregations over them with pandas.  This file gives a shallow
embedding of the storage rows and of the pure aggregation / simulation logic:

* rows become Lean structures with rational `amount` fields (SQLite REAL),
* a DataFrame column becomes a `List` of rows,
* `pd.to_datetime(col, errors=coerce)` becomes `parseYM`, which yields the
  "YYYY-MM" bucket of an ISO-8601 date string or `none` when the string does
  not parse (a `NaT` in pandas),
* `sorted(set(...))` / groupby-merge-sort on month keys becomes `sortedMonths`,
  an insertion sort with deduplication over the lexicographic byte order used
  by Python string comparison,
* the SQLite id/delete behaviour becomes the `Store`/`Op` state machine
  (AUTOINCREMENT ids are assigned monotonically and never reused; DELETE of a
  missing id is a no-op).
-/

namespace SmartMoney

/-- A row of the `incomes` table (columns id, amount, source, the_date). -/
structure IncomeEntry where
  id : Nat
  amount : ℚ
  source : String
  the_date : String
deriving DecidableEq

/-- A row of the `expenses` table (columns id, amount, category, description, the_date). -/
structure ExpenseEntry where
  id : Nat
  amount : ℚ
  category : String
  description : String
  the_date : String
deriving DecidableEq

/-- A row of the `targets` table (columns id, name, target_amount, target_date, created_at). -/
structure Target where
  id : Nat
  name : String
  target_amount : ℚ
  target_date : String
  created_at : String
deriving DecidableEq

/-- Whether a list of characters is a well-formed ISO-8601 date "YYYY-MM-DD".
Models which stored date strings survive `pd.to_datetime(..., errors=coerce)`;
anything else becomes `NaT` and is dropped from date-bucketed aggregations. -/
def validISO (cs : List Char) : Bool :=
  match cs with
  | [y1, y2, y3, y4, s1, m1, m2, s2, d1, d2] =>
    y1.isDigit && y2.isDigit && y3.isDigit && y4.isDigit &&
    (s1 = '-' : Bool) && m1.isDigit && m2.isDigit && (s2 = '-' : Bool) &&
    d1.isDigit && d2.isDigit &&
    (decide (1 ≤ (m1.toNat - 48) * 10 + (m2.toNat - 48)) &&
     decide ((m1.toNat - 48) * 10 + (m2.toNat - 48) ≤ 12)) &&
    (decide (1 ≤ (d1.toNat - 48) * 10 + (d2.toNat - 48)) &&
     decide ((d1.toNat - 48) * 10 + (d2.toNat - 48) ≤ 31))
  | _ => false

/-- The "YYYY-MM" month bucket of a stored date string
(`the_date.dt.strftime(%Y-%m)` after coercion), or `none` when unparseable. -/
def parseYM (s : String) : Option String :=
  if validISO s.data then some (String.mk (s.data.take 7)) else none

/-- Sum of the `amount` column of an income DataFrame
(`incomes[amount].sum()`; the empty sum is 0). -/
def sumIncome (l : List IncomeEntry) : ℚ := (l.map fun r => r.amount).sum

/-- Sum of the `amount` column of an expense DataFrame. -/
def sumExpense (l : List ExpenseEntry) : ℚ := (l.map fun r => r.amount).sum

/-- The filter `incomes[incomes[the_date].dt.strftime(%Y-%m) == month_year]`:
rows whose date parses to the given bucket; `NaT` rows never match. -/
def incomesInMonth (m : String) (l : List IncomeEntry) : List IncomeEntry :=
  l.filter fun r => decide (parseYM r.the_date = some m)

/-- The analogous month filter on expense rows. -/
def expensesInMonth (m : String) (l : List ExpenseEntry) : List ExpenseEntry :=
  l.filter fun r => decide (parseYM r.the_date = some m)

/-- The optional month filter at the top of `monthly_summary`:
filter to the bucket when a month is given, else keep every row. -/
def bucketIncomes : Option String → List IncomeEntry → List IncomeEntry
  | some m, l => incomesInMonth m l
  | none, l => l

/-- The optional month filter on the expense side. -/
def bucketExpenses : Option String → List ExpenseEntry → List ExpenseEntry
  | some m, l => expensesInMonth m l
  | none, l => l

/-- Result record of `monthly_summary`. -/
structure Summary where
  income : ℚ
  expense : ℚ
  saved : ℚ
  saving_rate : ℚ
deriving DecidableEq

/-- `monthly_summary(month_year=None)` from src/app.py: optionally filter both
collections to one "YYYY-MM" bucket, then total them, with
`saved = total_in - total_out` and
`saving_rate = saved / total_in * 100 if total_in > 0 else 0`. -/
def monthly_summary (incomes : List IncomeEntry) (expenses : List ExpenseEntry)
    (month_year : Option String) : Summary :=
  let inc := bucketIncomes month_year incomes
  let exp := bucketExpenses month_year expenses
  let total_in : ℚ := if inc.isEmpty then 0 else sumIncome inc
  let total_out : ℚ := if exp.isEmpty then 0 else sumExpense exp
  let saved := total_in - total_out
  let saving_rate : ℚ := if 0 < total_in then saved / total_in * 100 else 0
  ⟨total_in, total_out, saved, saving_rate⟩

/-- `compute_progress_against_target(target)` from src/app.py: global saved
amount and the progress percentage
`min(100, max(0, total_saved / target_amount * 100))` when the target amount is
positive, else `0`. -/
def compute_progress_against_target (incomes : List IncomeEntry)
    (expenses : List ExpenseEntry) (t : Target) : ℚ × ℚ :=
  let total_saved := sumIncome incomes - sumExpense expenses
  let percent : ℚ :=
    if 0 < t.target_amount then min 100 (max 0 (total_saved / t.target_amount * 100)) else 0
  (total_saved, percent)

/-- Structural lexicographic order on character lists: the order Python uses to
compare str values, hence the order of `sorted(...)` and of pandas
`sort_values` on the "YYYY-MM" keys. -/
def lexLt : List Char → List Char → Bool
  | [], [] => false
  | [], _ :: _ => true
  | _ :: _, [] => false
  | a :: as, b :: bs => if a < b then true else if b < a then false else lexLt as bs

/-- Strict string order (as a proposition) induced by `lexLt`. -/
def monthLt (a b : String) : Prop := lexLt a.data b.data = true

/-- Insert a month key into a sorted duplicate-free list of keys, keeping it
sorted and duplicate-free. -/
def insertMonth (m : String) : List String → List String
  | [] => [m]
  | x :: xs =>
    if m = x then x :: xs
    else if lexLt m.data x.data then m :: x :: xs
    else x :: insertMonth m xs

/-- `sorted(set(keys))`: the sorted duplicate-free list of month keys. -/
def sortedMonths (l : List String) : List String := l.foldr insertMonth []

/-- Month buckets of the income rows whose dates parse
(`dropna` then `strftime(%Y-%m)`). -/
def incomeMonths (l : List IncomeEntry) : List String :=
  l.filterMap fun r => parseYM r.the_date

/-- Month buckets of the expense rows whose dates parse. -/
def expenseMonths (l : List ExpenseEntry) : List String :=
  l.filterMap fun r => parseYM r.the_date

/-- The backward walk of `consecutive_saving_months`: length of the run of
entries at the head whose rate meets the threshold, stopping at the first
failure. -/
def countStreak (threshold : ℚ) : List (String × ℚ) → Nat
  | [] => 0
  | p :: rest => if threshold ≤ p.2 then countStreak threshold rest + 1 else 0

/-- `consecutive_saving_months(threshold_rate)` from src/app.py: early out when
both collections are empty; otherwise build the chronologically sorted list of
months appearing in either collection, pair each with that month's
`saving_rate`, and count the trailing run of months meeting the threshold by
walking the sequence in reverse. -/
def consecutive_saving_months (incomes : List IncomeEntry)
    (expenses : List ExpenseEntry) (threshold_rate : ℚ) : Nat × List (String × ℚ) :=
  if incomes.isEmpty && expenses.isEmpty then (0, [])
  else
    let months := sortedMonths (incomeMonths incomes ++ expenseMonths expenses)
    let seq := months.map fun m => (m, (monthly_summary incomes expenses (some m)).saving_rate)
    (countStreak threshold_rate seq.reverse, seq)

/-- `prepare_monthly_df()` from src/app.py: group each side by month bucket and
sum amounts, outer-merge the two groupings with missing sides filled with 0,
and sort rows by the bucket key.  A row is `(ym, income, expense)`. -/
def prepare_monthly_df (incomes : List IncomeEntry)
    (expenses : List ExpenseEntry) : List (String × ℚ × ℚ) :=
  let months := sortedMonths (incomeMonths incomes ++ expenseMonths expenses)
  months.map fun m =>
    (m, sumIncome (incomesInMonth m incomes), sumExpense (expensesInMonth m expenses))

/-- `avg_income` in the simulation block:
`inc_df[amount].sum() / max(1, len(inc_df)) if not inc_df.empty else 0`. -/
def avg_income (incomes : List IncomeEntry) : ℚ :=
  if incomes.isEmpty then 0 else sumIncome incomes / (max 1 incomes.length : ℕ)

/-- `avg_expense` in the simulation block, same shape as `avg_income`. -/
def avg_expense (expenses : List ExpenseEntry) : ℚ :=
  if expenses.isEmpty then 0 else sumExpense expenses / (max 1 expenses.length : ℕ)

/-- Outcome rendered by the simulation block: the warning that the target is
unreachable (`months_needed == inf`), or the estimated number of months. -/
inductive SimOutcome where
  | unreachable : SimOutcome
  | months : ℚ → SimOutcome
deriving DecidableEq

/-- The simulation block of the "Target & Simulasi" page: nothing is computed
when the target list is empty (`if not tlist.empty`); otherwise, for the first
target of the list, `reduced_expense = avg_expense * (1 - reduction/100)`,
`new_monthly_saving = max(0, avg_income - reduced_expense)`,
`remaining = max(0, target_amount - saved_now)`, and
`months_needed = remaining / new_monthly_saving` when the projected saving is
positive, else the unreachable warning. -/
def simulate (incomes : List IncomeEntry) (expenses : List ExpenseEntry)
    (targets : List Target) (reduction : ℚ) : Option SimOutcome :=
  match targets with
  | [] => none
  | t0 :: _ =>
    let saved_now := sumIncome incomes - sumExpense expenses
    let reduced_expense := avg_expense expenses * (1 - reduction / 100)
    let new_monthly_saving := max 0 (avg_income incomes - reduced_expense)
    let remaining := max 0 (t0.target_amount - saved_now)
    some (if 0 < new_monthly_saving then
            SimOutcome.months (remaining / new_monthly_saving)
          else SimOutcome.unreachable)

/-- One table of the store, id-wise: the ids of its current rows together with
the next AUTOINCREMENT id.  SQLite assigns ids monotonically and never reuses
one after a delete. -/
structure Store where
  nextId : Nat
  rows : List Nat
deriving DecidableEq

/-- A mutating call against one table: an INSERT (`add_income` / `add_expense`
/ `add_target`) or a `DELETE ... WHERE id=?`. -/
inductive Op where
  | add : Op
  | del : Nat → Op
deriving DecidableEq

/-- Effect of one mutating call: INSERT appends a row with the next id and
bumps the counter; DELETE removes the rows with the given id (a no-op when no
row has it). -/
def applyOp (s : Store) : Op → Store
  | Op.add => ⟨s.nextId + 1, s.rows ++ [s.nextId]⟩
  | Op.del i => ⟨s.nextId, s.rows.filter fun j => decide (j ≠ i)⟩

/-- Run a sequence of mutating calls. -/
def runOps (s : Store) (ops : List Op) : Store := ops.foldl applyOp s

/-- A freshly created table: no rows, AUTOINCREMENT starts at 1. -/
def initStore : Store := ⟨1, []⟩

/-- The ids handed out by the INSERTs of a call sequence, in order. -/
def assignedFrom (s : Store) : List Op → List Nat
  | [] => []
  | Op.add :: ops => s.nextId :: assignedFrom (applyOp s Op.add) ops
  | Op.del i :: ops => assignedFrom (applyOp s (Op.del i)) ops

/-- The ids passed to the DELETEs of a call sequence. -/
def deletedIds : List Op → List Nat
  | [] => []
  | Op.add :: ops => deletedIds ops
  | Op.del i :: ops => i :: deletedIds ops

/-- A call sequence in which every DELETE targets an id that was already
assigned at that point. -/
def wfOps (s : Store) : List Op → Bool
  | [] => true
  | Op.add :: ops => wfOps (applyOp s Op.add) ops
  | Op.del i :: ops => decide (i < s.nextId) && wfOps (applyOp s (Op.del i)) ops

/-- Result of submitting an entry form: the inline error, or a stored row. -/
inductive EntryResult where
  | rejected : EntryResult
  | saved : EntryResult
deriving DecidableEq

/-- The "Simpan Pemasukan" handler: `if inc_amount <= 0: st.error(...)` with no
write, else `add_income(...)` appends the row. -/
def submit_income (incomes : List IncomeEntry) (nextId : Nat) (amount : ℚ)
    (source the_date : String) : List IncomeEntry × EntryResult :=
  if amount ≤ 0 then (incomes, EntryResult.rejected)
  else (incomes ++ [⟨nextId, amount, source, the_date⟩], EntryResult.saved)

/-- The "Simpan Pengeluaran" handler, same guard on the expense side. -/
def submit_expense (expenses : List ExpenseEntry) (nextId : Nat) (amount : ℚ)
    (category description the_date : String) : List ExpenseEntry × EntryResult :=
  if amount ≤ 0 then (expenses, EntryResult.rejected)
  else (expenses ++ [⟨nextId, amount, category, description, the_date⟩], EntryResult.saved)

/-! Helper lemmas about the lexicographic order and the sorted-set builder. -/

theorem lexLt_cons {a b : Char} {as bs : List Char} :
    lexLt (a :: as) (b :: bs) = true ↔ a < b ∨ (a = b ∧ lexLt as bs = true) := by
  simp only [lexLt]
  split_ifs with h1 h2
  · simp [h1]
  · have hne : a ≠ b := ne_of_gt h2
    simp [h1, hne]
  · have heq : a = b := le_antisymm (le_of_not_lt h2) (le_of_not_lt h1)
    simp [heq, h1]

theorem lexLt_trans {a b c : List Char} (h1 : lexLt a b = true)
    (h2 : lexLt b c = true) : lexLt a c = true := by
  induction a generalizing b c with
  | nil =>
    cases b with
    | nil => simp [lexLt] at h1
    | cons b bs =>
      cases c with
      | nil => simp [lexLt] at h2
      | cons c cs => simp [lexLt]
  | cons a as ih =>
    cases b with
    | nil => simp [lexLt] at h1
    | cons b bs =>
      cases c with
      | nil => simp [lexLt] at h2
      | cons c cs =>
        rw [lexLt_cons] at h1 h2 ⊢
        rcases h1 with h1 | ⟨rfl, h1⟩
        · rcases h2 with h2 | ⟨rfl, h2⟩
          · exact Or.inl (lt_trans h1 h2)
          · exact Or.inl h1
        · rcases h2 with h2 | ⟨rfl, h2⟩
          · exact Or.inl h2
          · exact Or.inr ⟨rfl, ih h1 h2⟩

theorem lexLt_total {a b : List Char} (h : a ≠ b) :
    lexLt a b = true ∨ lexLt b a = true := by
  induction a generalizing b with
  | nil =>
    cases b with
    | nil => exact absurd rfl h
    | cons b bs => exact Or.inl (by simp [lexLt])
  | cons a as ih =>
    cases b with
    | nil => exact Or.inr (by simp [lexLt])
    | cons b bs =>
      rcases lt_trichotomy a b with hab | rfl | hab
      · exact Or.inl (lexLt_cons.mpr (Or.inl hab))
      · have hne : as ≠ bs := by
          intro he
          exact h (by rw [he])
        rcases ih hne with h' | h'
        · exact Or.inl (lexLt_cons.mpr (Or.inr ⟨rfl, h'⟩))
        · exact Or.inr (lexLt_cons.mpr (Or.inr ⟨rfl, h'⟩))
      · exact Or.inr (lexLt_cons.mpr (Or.inl hab))

theorem monthLt_trans {a b c : String} (h1 : monthLt a b) (h2 : monthLt b c) :
    monthLt a c :=
  lexLt_trans h1 h2

theorem monthLt_total {a b : String} (h : a ≠ b) : monthLt a b ∨ monthLt b a := by
  apply lexLt_total
  intro hd
  apply h
  cases a
  cases b
  simp_all

theorem mem_insertMonth {a m : String} {l : List String} :
    a ∈ insertMonth m l ↔ a = m ∨ a ∈ l := by
  induction l with
  | nil => simp [insertMonth]
  | cons x xs ih =>
    simp only [insertMonth]
    split_ifs with h1 h2
    · subst h1
      simp [List.mem_cons]
    · simp [List.mem_cons]
    · simp [List.mem_cons, ih]
      tauto

theorem sorted_insertMonth {m : String} {l : List String}
    (h : l.Pairwise monthLt) : (insertMonth m l).Pairwise monthLt := by
  induction l with
  | nil => simp [insertMonth, List.pairwise_cons]
  | cons x xs ih =>
    rw [List.pairwise_cons] at h
    obtain ⟨hx, hxs⟩ := h
    simp only [insertMonth]
    split_ifs with h1 h2
    · exact List.pairwise_cons.mpr ⟨hx, hxs⟩
    · refine List.pairwise_cons.mpr ⟨?_, List.pairwise_cons.mpr ⟨hx, hxs⟩⟩
      intro y hy
      rcases List.mem_cons.mp hy with rfl | hy'
      · exact h2
      · exact monthLt_trans h2 (hx y hy')
    · have hxm : monthLt x m := by
        rcases monthLt_total h1 with hmx | hxm
        · exact absurd hmx h2
        · exact hxm
      refine List.pairwise_cons.mpr ⟨?_, ih hxs⟩
      intro y hy
      rcases mem_insertMonth.mp hy with rfl | hy'
      · exact hxm
      · exact hx y hy'

theorem sorted_sortedMonths (l : List String) : (sortedMonths l).Pairwise monthLt := by
  induction l with
  | nil => simp [sortedMonths]
  | cons x xs ih =>
    have hstep : sortedMonths (x :: xs) = insertMonth x (sortedMonths xs) := rfl
    rw [hstep]
    exact sorted_insertMonth ih

theorem mem_sortedMonths {a : String} {l : List String} :
    a ∈ sortedMonths l ↔ a ∈ l := by
  induction l with
  | nil => simp [sortedMonths]
  | cons x xs ih =>
    have hstep : sortedMonths (x :: xs) = insertMonth x (sortedMonths xs) := rfl
    rw [hstep, mem_insertMonth, ih]
    simp [List.mem_cons]

/-! Helper lemmas about the aggregation functions. -/

theorem sum_if_empty_income (l : List IncomeEntry) :
    (if l.isEmpty then (0 : ℚ) else sumIncome l) = sumIncome l := by
  cases l <;> simp [sumIncome]

theorem sum_if_empty_expense (l : List ExpenseEntry) :
    (if l.isEmpty then (0 : ℚ) else sumExpense l) = sumExpense l := by
  cases l <;> simp [sumExpense]

theorem monthly_summary_def (incomes : List IncomeEntry)
    (expenses : List ExpenseEntry) (mo : Option String) :
    monthly_summary incomes expenses mo
      = ⟨sumIncome (bucketIncomes mo incomes), sumExpense (bucketExpenses mo expenses),
         sumIncome (bucketIncomes mo incomes) - sumExpense (bucketExpenses mo expenses),
         if 0 < sumIncome (bucketIncomes mo incomes) then
           (sumIncome (bucketIncomes mo incomes) - sumExpense (bucketExpenses mo expenses))
             / sumIncome (bucketIncomes mo incomes) * 100
         else 0⟩ := by
  simp only [monthly_summary, sum_if_empty_income, sum_if_empty_expense]

theorem countStreak_eq_takeWhile (threshold : ℚ) (l : List (String × ℚ)) :
    countStreak threshold l
      = (l.takeWhile fun p => decide (threshold ≤ p.2)).length := by
  induction l with
  | nil => rfl
  | cons p rest ih =>
    rw [List.takeWhile_cons]
    by_cases h : threshold ≤ p.2
    · simp [countStreak, h, ih]
    · simp [countStreak, h]

theorem consecutive_saving_months_eq (incomes : List IncomeEntry)
    (expenses : List ExpenseEntry) (th : ℚ) :
    consecutive_saving_months incomes expenses th
      = if incomes.isEmpty && expenses.isEmpty then (0, [])
        else
          (countStreak th
            (((sortedMonths (incomeMonths incomes ++ expenseMonths expenses)).map
              fun m => (m, (monthly_summary incomes expenses (some m)).saving_rate)).reverse),
           (sortedMonths (incomeMonths incomes ++ expenseMonths expenses)).map
              fun m => (m, (monthly_summary incomes expenses (some m)).saving_rate)) := rfl

theorem sumExpense_pos {expenses : List ExpenseEntry} (h : expenses ≠ [])
    (hp : ∀ e ∈ expenses, 0 < e.amount) : 0 < sumExpense expenses := by
  apply List.sum_pos
  · intro a ha
    rcases List.mem_map.mp ha with ⟨e, he, rfl⟩
    exact hp e he
  · simp [List.map_eq_nil_iff]
    exact h

theorem avg_expense_pos {expenses : List ExpenseEntry} (h : expenses ≠ [])
    (hp : ∀ e ∈ expenses, 0 < e.amount) : 0 < avg_expense expenses := by
  have hne : expenses.isEmpty = false := by
    cases expenses
    · exact absurd rfl h
    · rfl
  rw [avg_expense, hne]
  simp only [Bool.false_eq_true, if_false]
  apply div_pos (sumExpense_pos h hp)
  have : (0 : ℕ) < max 1 expenses.length := lt_of_lt_of_le Nat.zero_lt_one (le_max_left _ _)
  exact_mod_cast this

/-! Claim theorems. -/

/-- C4: `monthly_summary(m)` totals exactly the records of bucket `m` (all
records when no month is given), `saved = income - expense`,
`saving_rate = saved / income * 100` when the income total is positive and `0`
otherwise; a month with no matching records returns all zeros, and the
scenario income 1000000 on 2024-01-10 with expense 400000 (category Makan) on
2024-01-15 gives `{income 1000000, expense 400000, saved 600000,
saving_rate 60}` for month "2024-01". -/
theorem monthly_summary_spec (incomes : List IncomeEntry)
    (expenses : List ExpenseEntry) (m : String) :
    (monthly_summary incomes expenses (some m)).income
        = sumIncome (incomesInMonth m incomes)
    ∧ (monthly_summary incomes expenses (some m)).expense
        = sumExpense (expensesInMonth m expenses)
    ∧ (monthly_summary incomes expenses none).income = sumIncome incomes
    ∧ (monthly_summary incomes expenses none).expense = sumExpense expenses
    ∧ (monthly_summary incomes expenses (some m)).saved
        = (monthly_summary incomes expenses (some m)).income
          - (monthly_summary incomes expenses (some m)).expense
    ∧ (0 < (monthly_summary incomes expenses (some m)).income →
        (monthly_summary incomes expenses (some m)).saving_rate
          = (monthly_summary incomes expenses (some m)).saved
            / (monthly_summary incomes expenses (some m)).income * 100)
    ∧ (¬ 0 < (monthly_summary incomes expenses (some m)).income →
        (monthly_summary incomes expenses (some m)).saving_rate = 0)
    ∧ (incomesInMonth m incomes = [] → expensesInMonth m expenses = [] →
        monthly_summary incomes expenses (some m) = ⟨0, 0, 0, 0⟩)
    ∧ monthly_summary [⟨1, 1000000, "Gaji", "2024-01-10"⟩]
        [⟨1, 400000, "Makan", "", "2024-01-15"⟩] (some "2024-01")
        = ⟨1000000, 400000, 600000, 60⟩ := by
  refine ⟨?_, ?_, ?_, ?_, ?_, ?_, ?_, ?_, ?_⟩
  · simp [monthly_summary_def, bucketIncomes]
  · simp [monthly_summary_def, bucketExpenses]
  · simp [monthly_summary_def, bucketIncomes]
  · simp [monthly_summary_def, bucketExpenses]
  · simp [monthly_summary_def]
  · intro h
    rw [monthly_summary_def] at h ⊢
    simp only [bucketIncomes, bucketExpenses] at h ⊢
    rw [if_pos h]
  · intro h
    rw [monthly_summary_def] at h ⊢
    simp only [bucketIncomes, bucketExpenses] at h ⊢
    rw [if_neg h]
  · intro h1 h2
    rw [monthly_summary_def]
    simp [bucketIncomes, bucketExpenses, h1, h2, sumIncome, sumExpense]
  · have e1 : incomesInMonth "2024-01" [⟨1, 1000000, "Gaji", "2024-01-10"⟩]
        = [⟨1, 1000000, "Gaji", "2024-01-10"⟩] := by decide
    have e2 : expensesInMonth "2024-01" [⟨1, 400000, "Makan", "", "2024-01-15"⟩]
        = [⟨1, 400000, "Makan", "", "2024-01-15"⟩] := by decide
    rw [monthly_summary_def]
    simp only [bucketIncomes, bucketExpenses, e1, e2]
    simp [sumIncome, sumExpense, Summary.mk.injEq]
    norm_num

/-- C4 witness: the empty-bucket clause of `monthly_summary_spec` applied to a
record that lies in a different month. -/
theorem monthly_summary_spec_witness :
    monthly_summary [⟨1, 100, "Gaji", "2024-03-05"⟩] [] (some "2024-01") = ⟨0, 0, 0, 0⟩ :=
  (monthly_summary_spec [⟨1, 100, "Gaji", "2024-03-05"⟩] [] "2024-01").2.2.2.2.2.2.2.1
    (by decide) (by decide)

/-- C5: when total income is positive and total expense exceeds it the
saving_rate is negative and still equal to the unclamped formula
`saved / income * 100`; when total income is zero the rate is defined to be 0
(no division is attempted). -/
theorem saving_rate_preserved (incomes : List IncomeEntry)
    (expenses : List ExpenseEntry) :
    (0 < sumIncome incomes → sumIncome incomes < sumExpense expenses →
        (monthly_summary incomes expenses none).saving_rate < 0)
    ∧ (0 < sumIncome incomes →
        (monthly_summary incomes expenses none).saving_rate
          = (sumIncome incomes - sumExpense expenses) / sumIncome incomes * 100)
    ∧ (sumIncome incomes = 0 →
        (monthly_summary incomes expenses none).saving_rate = 0) := by
  refine ⟨?_, ?_, ?_⟩
  · intro h1 h2
    rw [monthly_summary_def]
    simp only [bucketIncomes, bucketExpenses]
    rw [if_pos h1]
    apply mul_neg_of_neg_of_pos
    · exact div_neg_of_neg_of_pos (by linarith) h1
    · norm_num
  · intro h
    rw [monthly_summary_def]
    simp only [bucketIncomes, bucketExpenses]
    rw [if_pos h]
  · intro h
    rw [monthly_summary_def]
    simp only [bucketIncomes, bucketExpenses]
    rw [h]
    simp

/-- C5 witness: income 100 against expense 200 yields a negative saving rate. -/
theorem saving_rate_preserved_witness :
    (monthly_summary [⟨1, 100, "Gaji", "2024-01-10"⟩]
        [⟨1, 200, "Makan", "", "2024-01-15"⟩] none).saving_rate < 0 :=
  (saving_rate_preserved [⟨1, 100, "Gaji", "2024-01-10"⟩]
      [⟨1, 200, "Makan", "", "2024-01-15"⟩]).1
    (by simp [sumIncome]) (by simp [sumIncome, sumExpense]; norm_num)

/-- C3: `compute_progress_against_target` takes the global saved amount (all
income minus all expense, not time-scoped); the percentage is the clamped
`saved / target_amount * 100` when the target amount is positive, always stays
in [0, 100], and is 0 when the target amount is 0 (no division by zero). -/
theorem target_progress_spec (incomes : List IncomeEntry)
    (expenses : List ExpenseEntry) (t : Target) :
    (compute_progress_against_target incomes expenses t).1
        = sumIncome incomes - sumExpense expenses
    ∧ (0 < t.target_amount →
        (compute_progress_against_target incomes expenses t).2
          = min 100 (max 0 ((sumIncome incomes - sumExpense expenses)
              / t.target_amount * 100)))
    ∧ 0 ≤ (compute_progress_against_target incomes expenses t).2
    ∧ (compute_progress_against_target incomes expenses t).2 ≤ 100
    ∧ (t.target_amount = 0 →
        (compute_progress_against_target incomes expenses t).2 = 0) := by
  refine ⟨rfl, ?_, ?_, ?_, ?_⟩
  · intro h
    simp [compute_progress_against_target, h]
  · by_cases h : 0 < t.target_amount
    · simp only [compute_progress_against_target, if_pos h]
      exact le_min (by norm_num) (le_max_left _ _)
    · simp [compute_progress_against_target, h]
  · by_cases h : 0 < t.target_amount
    · simp only [compute_progress_against_target, if_pos h]
      exact min_le_left _ _
    · simp [compute_progress_against_target, h]
  · intro h
    simp [compute_progress_against_target, h]

/-- C3 witness: the clamped-percentage clause at a target of amount 100. -/
theorem target_progress_spec_witness :
    (compute_progress_against_target [⟨1, 500, "Gaji", "2024-01-10"⟩] []
        ⟨1, "Dana", 100, "2025-01-01", "2024-01-02"⟩).2
      = min 100 (max 0 ((sumIncome [⟨1, 500, "Gaji", "2024-01-10"⟩] - sumExpense [])
          / (100 : ℚ) * 100)) :=
  (target_progress_spec [⟨1, 500, "Gaji", "2024-01-10"⟩] []
      ⟨1, "Dana", 100, "2025-01-01", "2024-01-02"⟩).2.1 (by decide)

/-- C9: an entry form submission with amount ≤ 0 is rejected with no write (the
collection is returned unchanged), an amount > 0 is appended, and every stored
record keeps a positive amount. -/
theorem entry_validation_spec (incomes : List IncomeEntry)
    (expenses : List ExpenseEntry) (nid mid : Nat) (a b : ℚ)
    (src cat desc d1 d2 : String) :
    (a ≤ 0 → submit_income incomes nid a src d1 = (incomes, EntryResult.rejected))
    ∧ (0 < a → submit_income incomes nid a src d1
        = (incomes ++ [⟨nid, a, src, d1⟩], EntryResult.saved))
    ∧ ((∀ r ∈ incomes, 0 < r.amount) →
        ∀ r ∈ (submit_income incomes nid a src d1).1, 0 < r.amount)
    ∧ (b ≤ 0 → submit_expense expenses mid b cat desc d2
        = (expenses, EntryResult.rejected))
    ∧ (0 < b → submit_expense expenses mid b cat desc d2
        = (expenses ++ [⟨mid, b, cat, desc, d2⟩], EntryResult.saved))
    ∧ ((∀ r ∈ expenses, 0 < r.amount) →
        ∀ r ∈ (submit_expense expenses mid b cat desc d2).1, 0 < r.amount) := by
  refine ⟨?_, ?_, ?_, ?_, ?_, ?_⟩
  · intro h
    simp [submit_income, h]
  · intro h
    simp [submit_income, not_le.mpr h]
  · intro hall r hr
    by_cases h : a ≤ 0
    · simp [submit_income, h] at hr
      exact hall r hr
    · simp [submit_income, h] at hr
      rcases hr with hr | rfl
      · exact hall r hr
      · simpa using not_le.mp h
  · intro h
    simp [submit_expense, h]
  · intro h
    simp [submit_expense, not_le.mpr h]
  · intro hall r hr
    by_cases h : b ≤ 0
    · simp [submit_expense, h] at hr
      exact hall r hr
    · simp [submit_expense, h] at hr
      rcases hr with hr | rfl
      · exact hall r hr
      · simpa using not_le.mp h

/-- C9 witness: an income of -5 is rejected with no write; an expense of 7 is
stored. -/
theorem entry_validation_spec_witness :
    submit_income [] 1 (-5) "Gaji" "2024-01-10" = ([], EntryResult.rejected)
    ∧ submit_expense [] 1 7 "Makan" "" "2024-01-11"
        = ([⟨1, 7, "Makan", "", "2024-01-11"⟩], EntryResult.saved) :=
  ⟨(entry_validation_spec [] [] 1 1 (-5) 7 "Gaji" "Makan" "" "2024-01-10" "2024-01-11").1
      (by decide),
   (entry_validation_spec [] [] 1 1 (-5) 7 "Gaji" "Makan" "" "2024-01-10"
      "2024-01-11").2.2.2.2.1 (by decide)⟩

/-- C10: with no stored target the simulation block computes nothing: neither a
months_needed estimate nor an unreachable verdict, whatever the reduction
percentage and the contents of the income and expense collections. -/
theorem empty_targets_no_simulation (incomes : List IncomeEntry)
    (expenses : List ExpenseEntry) (r : ℚ) :
    simulate incomes expenses [] r = none := rfl

theorem simulate_eq (incomes : List IncomeEntry) (expenses : List ExpenseEntry)
    (t0 : Target) (rest : List Target) (r : ℚ) :
    simulate incomes expenses (t0 :: rest) r
      = some (if 0 < max 0 (avg_income incomes - avg_expense expenses * (1 - r / 100))
              then SimOutcome.months
                (max 0 (t0.target_amount - (sumIncome incomes - sumExpense expenses))
                  / max 0 (avg_income incomes - avg_expense expenses * (1 - r / 100)))
              else SimOutcome.unreachable) := rfl

/-- C2: for any reduction percentage r between 0 and 50, the simulation block
uses the arithmetic means per record (0 for an empty collection), projects
`max(0, avg_income - avg_expense * (1 - r/100))`, reports unreachable exactly
when that projection is 0, and otherwise estimates
`max(0, target_amount - saved_now) / projection` months; in particular with no
income record and at least one (positive) expense record the average income is
0 and the verdict is unreachable. -/
theorem simulation_spec (incomes : List IncomeEntry) (expenses : List ExpenseEntry)
    (t0 : Target) (rest : List Target) (r : ℚ) (_hr0 : 0 ≤ r) (hr1 : r ≤ 50) :
    (incomes ≠ [] → avg_income incomes = sumIncome incomes / incomes.length)
    ∧ (incomes = [] → avg_income incomes = 0)
    ∧ (expenses ≠ [] → avg_expense expenses = sumExpense expenses / expenses.length)
    ∧ (expenses = [] → avg_expense expenses = 0)
    ∧ (simulate incomes expenses (t0 :: rest) r = some SimOutcome.unreachable
        ↔ max 0 (avg_income incomes - avg_expense expenses * (1 - r / 100)) = 0)
    ∧ (max 0 (avg_income incomes - avg_expense expenses * (1 - r / 100)) ≠ 0 →
        simulate incomes expenses (t0 :: rest) r
          = some (SimOutcome.months
              (max 0 (t0.target_amount - (sumIncome incomes - sumExpense expenses))
                / max 0 (avg_income incomes - avg_expense expenses * (1 - r / 100)))))
    ∧ (incomes = [] → expenses ≠ [] → (∀ e ∈ expenses, 0 < e.amount) →
        avg_income incomes = 0
          ∧ simulate incomes expenses (t0 :: rest) r = some SimOutcome.unreachable) := by
  have hM0 : (0 : ℚ) ≤ max 0 (avg_income incomes - avg_expense expenses * (1 - r / 100)) :=
    le_max_left _ _
  refine ⟨?_, ?_, ?_, ?_, ?_, ?_, ?_⟩
  · intro h
    have hne : incomes.isEmpty = false := by
      cases incomes
      · exact absurd rfl h
      · rfl
    have hlen : max 1 incomes.length = incomes.length :=
      Nat.max_eq_right (List.length_pos.mpr h)
    rw [avg_income, hne]
    simp only [Bool.false_eq_true, if_false]
    rw [hlen]
  · intro h
    subst h
    rfl
  · intro h
    have hne : expenses.isEmpty = false := by
      cases expenses
      · exact absurd rfl h
      · rfl
    have hlen : max 1 expenses.length = expenses.length :=
      Nat.max_eq_right (List.length_pos.mpr h)
    rw [avg_expense, hne]
    simp only [Bool.false_eq_true, if_false]
    rw [hlen]
  · intro h
    subst h
    rfl
  · rw [simulate_eq]
    constructor
    · intro h
      by_contra hne
      have hpos : 0 < max 0 (avg_income incomes - avg_expense expenses * (1 - r / 100)) :=
        lt_of_le_of_ne hM0 (Ne.symm hne)
      rw [if_pos hpos] at h
      simp at h
    · intro h
      rw [h]
      simp
  · intro hne
    have hpos : 0 < max 0 (avg_income incomes - avg_expense expenses * (1 - r / 100)) :=
      lt_of_le_of_ne hM0 (Ne.symm hne)
    rw [simulate_eq, if_pos hpos]
  · intro h1 h2 hp
    subst h1
    refine ⟨rfl, ?_⟩
    have hA : 0 < avg_expense expenses := avg_expense_pos h2 hp
    have hred : 0 < 1 - r / 100 := by linarith
    have hMeq : max (0 : ℚ)
        (avg_income ([] : List IncomeEntry) - avg_expense expenses * (1 - r / 100)) = 0 := by
      apply max_eq_left
      have hprod : 0 < avg_expense expenses * (1 - r / 100) := mul_pos hA hred
      have h0 : avg_income ([] : List IncomeEntry) = 0 := rfl
      rw [h0]
      linarith
    rw [simulate_eq, hMeq]
    simp

/-- C2 witness: no income records, one expense record of 50, target amount 100,
reduction 10 → average income 0 and an unreachable verdict. -/
theorem simulation_spec_witness :
    avg_income ([] : List IncomeEntry) = 0
    ∧ simulate [] [⟨1, 50, "Makan", "", "2024-01-15"⟩]
        [⟨1, "Dana", 100, "2025-01-01", "2024-01-02"⟩] 10 = some SimOutcome.unreachable :=
  (simulation_spec [] [⟨1, 50, "Makan", "", "2024-01-15"⟩]
      ⟨1, "Dana", 100, "2025-01-01", "2024-01-02"⟩ [] 10 (by decide) (by decide)).2.2.2.2.2.2
    rfl (by decide) (by decide)

/-- Scenario history for the streak claim: three months of income 100 with
expenses 95, 50, 80, i.e. saving rates 5, 50, 20. -/
def demoIncomes : List IncomeEntry :=
  [⟨1, 100, "Gaji", "2024-01-05"⟩, ⟨2, 100, "Gaji", "2024-02-05"⟩,
   ⟨3, 100, "Gaji", "2024-03-05"⟩]

/-- Expense side of the streak scenario. -/
def demoExpenses : List ExpenseEntry :=
  [⟨1, 95, "Makan", "", "2024-01-20"⟩, ⟨2, 50, "Makan", "", "2024-02-20"⟩,
   ⟨3, 80, "Makan", "", "2024-03-20"⟩]

/-- C1: `consecutive_saving_months` returns the per-month saving-rate sequence
with its month keys sorted chronologically and duplicate-free, and the count is
the length of the run of months meeting the threshold when the sequence is
walked from the most recent month backward (a takeWhile over the reversed
sequence); an empty history yields `(0, [])`, and in the scenario of two recent
months with rates ≥ 10 preceded by a month with rate < 10 the streak at
threshold 10 is exactly 2. -/
theorem streak_spec (incomes : List IncomeEntry) (expenses : List ExpenseEntry)
    (threshold : ℚ) :
    ((consecutive_saving_months incomes expenses threshold).2.map Prod.fst).Pairwise monthLt
    ∧ (consecutive_saving_months incomes expenses threshold).1
        = ((consecutive_saving_months incomes expenses threshold).2.reverse.takeWhile
            fun p => decide (threshold ≤ p.2)).length
    ∧ (incomes = [] → expenses = [] →
        consecutive_saving_months incomes expenses threshold = (0, []))
    ∧ (consecutive_saving_months demoIncomes demoExpenses 10).1 = 2 := by
  refine ⟨?_, ?_, ?_, ?_⟩
  · rw [consecutive_saving_months_eq]
    by_cases h : (incomes.isEmpty && expenses.isEmpty) = true
    · rw [if_pos h]
      simp
    · rw [if_neg h]
      have hmap : (((sortedMonths (incomeMonths incomes ++ expenseMonths expenses)).map
            fun m => (m, (monthly_summary incomes expenses (some m)).saving_rate)).map
              Prod.fst)
          = sortedMonths (incomeMonths incomes ++ expenseMonths expenses) := by
        simp [List.map_map, Function.comp_def]
      simp only []
      rw [hmap]
      exact sorted_sortedMonths _
  · rw [consecutive_saving_months_eq]
    by_cases h : (incomes.isEmpty && expenses.isEmpty) = true
    · rw [if_pos h]
      simp
    · rw [if_neg h]
      exact countStreak_eq_takeWhile _ _
  · intro h1 h2
    subst h1
    subst h2
    rfl
  · have r1 : (monthly_summary demoIncomes demoExpenses (some "2024-01")).saving_rate = 5 := by
      have e1 : incomesInMonth "2024-01" demoIncomes = [⟨1, 100, "Gaji", "2024-01-05"⟩] := by
        decide
      have e2 : expensesInMonth "2024-01" demoExpenses
          = [⟨1, 95, "Makan", "", "2024-01-20"⟩] := by decide
      rw [monthly_summary_def]
      simp only [bucketIncomes, bucketExpenses, e1, e2]
      simp [sumIncome, sumExpense]
      norm_num
    have r2 : (monthly_summary demoIncomes demoExpenses (some "2024-02")).saving_rate = 50 := by
      have e1 : incomesInMonth "2024-02" demoIncomes = [⟨2, 100, "Gaji", "2024-02-05"⟩] := by
        decide
      have e2 : expensesInMonth "2024-02" demoExpenses
          = [⟨2, 50, "Makan", "", "2024-02-20"⟩] := by decide
      rw [monthly_summary_def]
      simp only [bucketIncomes, bucketExpenses, e1, e2]
      simp [sumIncome, sumExpense]
      norm_num
    have r3 : (monthly_summary demoIncomes demoExpenses (some "2024-03")).saving_rate = 20 := by
      have e1 : incomesInMonth "2024-03" demoIncomes = [⟨3, 100, "Gaji", "2024-03-05"⟩] := by
        decide
      have e2 : expensesInMonth "2024-03" demoExpenses
          = [⟨3, 80, "Makan", "", "2024-03-20"⟩] := by decide
      rw [monthly_summary_def]
      simp only [bucketIncomes, bucketExpenses, e1, e2]
      simp [sumIncome, sumExpense]
      norm_num
    have hm : sortedMonths (incomeMonths demoIncomes ++ expenseMonths demoExpenses)
        = ["2024-01", "2024-02", "2024-03"] := by decide
    rw [consecutive_saving_months_eq]
    rw [show (demoIncomes.isEmpty && demoExpenses.isEmpty) = false from rfl]
    simp only [Bool.false_eq_true, if_false]
    rw [hm]
    simp only [List.map_cons, List.map_nil, r1, r2, r3]
    decide

/-- C1 witness: the empty-history clause at threshold 10. -/
theorem streak_spec_witness :
    consecutive_saving_months [] [] 10 = (0, []) :=
  (streak_spec [] [] 10).2.2.1 rfl rfl

/-- C6: a record whose date string does not parse is invisible to every
date-bucketed aggregation — the month-filtered summary, the monthly series and
the streak computation are unchanged by adding it — while the unfiltered
totals still include its amount. -/
theorem unparseable_date_spec (incomes : List IncomeEntry)
    (expenses : List ExpenseEntry) (i0 : IncomeEntry) (e0 : ExpenseEntry)
    (hi : parseYM i0.the_date = none) (he : parseYM e0.the_date = none) :
    (∀ m : String, monthly_summary (i0 :: incomes) (e0 :: expenses) (some m)
        = monthly_summary incomes expenses (some m))
    ∧ prepare_monthly_df (i0 :: incomes) (e0 :: expenses)
        = prepare_monthly_df incomes expenses
    ∧ (∀ th : ℚ, consecutive_saving_months (i0 :: incomes) (e0 :: expenses) th
        = consecutive_saving_months incomes expenses th)
    ∧ (monthly_summary (i0 :: incomes) (e0 :: expenses) none).income
        = i0.amount + (monthly_summary incomes expenses none).income
    ∧ (monthly_summary (i0 :: incomes) (e0 :: expenses) none).expense
        = e0.amount + (monthly_summary incomes expenses none).expense := by
  have hIM : ∀ m, incomesInMonth m (i0 :: incomes) = incomesInMonth m incomes := by
    intro m
    simp [incomesInMonth, List.filter_cons, hi]
  have hEM : ∀ m, expensesInMonth m (e0 :: expenses) = expensesInMonth m expenses := by
    intro m
    simp [expensesInMonth, List.filter_cons, he]
  have hIMo : incomeMonths (i0 :: incomes) = incomeMonths incomes := by
    simp [incomeMonths, List.filterMap_cons, hi]
  have hEMo : expenseMonths (e0 :: expenses) = expenseMonths expenses := by
    simp [expenseMonths, List.filterMap_cons, he]
  have hms : ∀ m, monthly_summary (i0 :: incomes) (e0 :: expenses) (some m)
      = monthly_summary incomes expenses (some m) := by
    intro m
    rw [monthly_summary_def, monthly_summary_def]
    simp only [bucketIncomes, bucketExpenses, hIM, hEM]
  refine ⟨hms, ?_, ?_, ?_, ?_⟩
  · simp only [prepare_monthly_df, hIMo, hEMo, hIM, hEM]
  · intro th
    rw [consecutive_saving_months_eq, consecutive_saving_months_eq]
    by_cases hcase : (incomes.isEmpty && expenses.isEmpty) = true
    · rw [if_pos hcase]
      rw [show ((i0 :: incomes).isEmpty && (e0 :: expenses).isEmpty) = false from rfl]
      simp only [Bool.false_eq_true, if_false]
      rw [Bool.and_eq_true] at hcase
      have h1 : incomes = [] := List.isEmpty_iff.mp hcase.1
      have h2 : expenses = [] := List.isEmpty_iff.mp hcase.2
      subst h1
      subst h2
      rw [hIMo, hEMo]
      simp [incomeMonths, expenseMonths, sortedMonths, countStreak]
    · rw [if_neg hcase]
      rw [show ((i0 :: incomes).isEmpty && (e0 :: expenses).isEmpty) = false from rfl]
      simp only [Bool.false_eq_true, if_false]
      rw [hIMo, hEMo]
      simp only [hms]
  · rw [monthly_summary_def, monthly_summary_def]
    simp only [bucketIncomes, bucketExpenses]
    simp [sumIncome]
  · rw [monthly_summary_def, monthly_summary_def]
    simp only [bucketIncomes, bucketExpenses]
    simp [sumExpense]

/-- C6 witness: two records with garbage date strings leave the bucketed
summary of "2024-01" untouched but are counted by the unfiltered totals. -/
theorem unparseable_date_spec_witness :
    monthly_summary [⟨1, 100, "Gaji", "not-a-date"⟩] [⟨1, 50, "Makan", "", "garbage"⟩]
        (some "2024-01")
      = monthly_summary [] [] (some "2024-01")
    ∧ (monthly_summary [⟨1, 100, "Gaji", "not-a-date"⟩] [⟨1, 50, "Makan", "", "garbage"⟩]
        none).income
      = 100 + (monthly_summary [] [] none).income :=
  ⟨(unparseable_date_spec [] [] ⟨1, 100, "Gaji", "not-a-date"⟩ ⟨1, 50, "Makan", "", "garbage"⟩
      (by decide) (by decide)).1 "2024-01",
   (unparseable_date_spec [] [] ⟨1, 100, "Gaji", "not-a-date"⟩ ⟨1, 50, "Makan", "", "garbage"⟩
      (by decide) (by decide)).2.2.2.1⟩

/-- C7: the monthly series has exactly one row per month with any parseable
income or expense activity (its key set is the set of month buckets of the two
collections), the rows are sorted strictly ascending by the "YYYY-MM" key, and
each row carries the income and expense totals of its month (0 when that side
has no record in the month). -/
theorem monthly_series_spec (incomes : List IncomeEntry)
    (expenses : List ExpenseEntry) :
    ((prepare_monthly_df incomes expenses).map Prod.fst).Pairwise monthLt
    ∧ (∀ m : String,
        m ∈ (prepare_monthly_df incomes expenses).map Prod.fst ↔
          ((∃ i ∈ incomes, parseYM i.the_date = some m)
            ∨ (∃ e ∈ expenses, parseYM e.the_date = some m)))
    ∧ (∀ row ∈ prepare_monthly_df incomes expenses,
        row.2.1 = sumIncome (incomesInMonth row.1 incomes)
          ∧ row.2.2 = sumExpense (expensesInMonth row.1 expenses)) := by
  have hmap : (prepare_monthly_df incomes expenses).map Prod.fst
      = sortedMonths (incomeMonths incomes ++ expenseMonths expenses) := by
    simp [prepare_monthly_df, List.map_map, Function.comp_def]
  refine ⟨?_, ?_, ?_⟩
  · rw [hmap]
    exact sorted_sortedMonths _
  · intro m
    rw [hmap, mem_sortedMonths, List.mem_append]
    simp [incomeMonths, expenseMonths, List.mem_filterMap]
  · intro row hrow
    simp only [prepare_monthly_df] at hrow
    rcases List.mem_map.mp hrow with ⟨mm, hmm, rfl⟩
    exact ⟨rfl, rfl⟩

/-- C7 witness: with one January income the series has the key "2024-01". -/
theorem monthly_series_spec_witness :
    "2024-01" ∈ (prepare_monthly_df [⟨1, 100, "Gaji", "2024-01-05"⟩] []).map Prod.fst :=
  ((monthly_series_spec [⟨1, 100, "Gaji", "2024-01-05"⟩] []).2.1 "2024-01").mpr
    (Or.inl ⟨⟨1, 100, "Gaji", "2024-01-05"⟩, by decide, by decide⟩)

/-- Invariant of the store state machine: every stored id is below the next
AUTOINCREMENT id. -/
def Bounded (s : Store) : Prop := ∀ j ∈ s.rows, j < s.nextId

theorem bounded_applyOp {s : Store} (h : Bounded s) (op : Op) :
    Bounded (applyOp s op) := by
  cases op with
  | add =>
    intro j hj
    show j < s.nextId + 1
    simp only [applyOp, List.mem_append, List.mem_singleton] at hj
    rcases hj with hj | rfl
    · exact lt_trans (h j hj) (Nat.lt_succ_self _)
    · exact Nat.lt_succ_self _
  | del i =>
    intro j hj
    exact h j (List.mem_of_mem_filter hj)

theorem le_of_mem_assignedFrom {s : Store} {ops : List Op} {i : Nat}
    (h : i ∈ assignedFrom s ops) : s.nextId ≤ i := by
  induction ops generalizing s with
  | nil => simp [assignedFrom] at h
  | cons op ops ih =>
    cases op with
    | add =>
      simp only [assignedFrom, List.mem_cons] at h
      rcases h with rfl | h'
      · exact le_refl _
      · exact le_trans (Nat.le_succ _) (ih h')
    | del j =>
      simp only [assignedFrom] at h
      have h2 := ih (s := applyOp s (Op.del j)) h
      exact h2

theorem mem_runOpsFrom {s : Store} (hB : Bounded s) {ops : List Op}
    (hwf : wfOps s ops = true) (i : Nat) :
    i ∈ (runOps s ops).rows
      ↔ ((i ∈ s.rows ∨ i ∈ assignedFrom s ops) ∧ i ∉ deletedIds ops) := by
  induction ops generalizing s with
  | nil => simp [runOps, assignedFrom, deletedIds]
  | cons op ops ih =>
    cases op with
    | add =>
      have hrun : runOps s (Op.add :: ops) = runOps (applyOp s Op.add) ops := rfl
      have hwf' : wfOps (applyOp s Op.add) ops = true := hwf
      rw [hrun, ih (bounded_applyOp hB Op.add) hwf']
      simp only [assignedFrom, deletedIds, List.mem_cons]
      constructor
      · rintro ⟨hmem, hdel⟩
        refine ⟨?_, hdel⟩
        rcases hmem with hmem | hass
        · simp only [applyOp, List.mem_append, List.mem_singleton] at hmem
          rcases hmem with hmem | rfl
          · exact Or.inl hmem
          · exact Or.inr (Or.inl rfl)
        · exact Or.inr (Or.inr hass)
      · rintro ⟨hmem, hdel⟩
        refine ⟨?_, hdel⟩
        rcases hmem with hmem | hass
        · left
          simp only [applyOp, List.mem_append, List.mem_singleton]
          exact Or.inl hmem
        · rcases hass with rfl | hass'
          · left
            simp [applyOp]
          · exact Or.inr hass'
    | del j =>
      have hwf2 := hwf
      rw [wfOps, Bool.and_eq_true, decide_eq_true_eq] at hwf2
      obtain ⟨hj, hwf'⟩ := hwf2
      have hrun : runOps s (Op.del j :: ops) = runOps (applyOp s (Op.del j)) ops := rfl
      rw [hrun, ih (bounded_applyOp hB (Op.del j)) hwf']
      simp only [assignedFrom, deletedIds, List.mem_cons]
      by_cases hij : i = j
      · subst hij
        constructor
        · rintro ⟨hmem | hass, hdel⟩
          · exfalso
            simp only [applyOp, List.mem_filter, decide_eq_true_eq] at hmem
            exact hmem.2 rfl
          · exfalso
            have h2 := le_of_mem_assignedFrom (s := applyOp s (Op.del i)) hass
            have h3 : s.nextId ≤ i := h2
            omega
        · rintro ⟨hmem, hdel⟩
          exact absurd (Or.inl rfl) hdel
      · constructor
        · rintro ⟨hmem | hass, hdel⟩
          · refine ⟨?_, ?_⟩
            · left
              simp only [applyOp, List.mem_filter, decide_eq_true_eq] at hmem
              exact hmem.1
            · intro hc
              rcases hc with hc | hc
              · exact hij hc
              · exact hdel hc
          · refine ⟨Or.inr hass, ?_⟩
            intro hc
            rcases hc with hc | hc
            · exact hij hc
            · exact hdel hc
        · rintro ⟨hmem | hass, hdel⟩
          · refine ⟨?_, fun hc => hdel (Or.inr hc)⟩
            left
            simp only [applyOp, List.mem_filter, decide_eq_true_eq]
            exact ⟨hmem, hij⟩
          · exact ⟨Or.inr hass, fun hc => hdel (Or.inr hc)⟩

/-- C8 counterexample: issue `DELETE id=1` on the fresh store, then one INSERT;
AUTOINCREMENT still assigns id 1, so the final id set {1} differs from
"assigned ids minus deleted ids" = {1} \ {1} = ∅, refuting the claim as
stated. -/
theorem crud_ids_counterexample :
    ¬ (∀ ops : List Op, ∀ i : Nat,
        i ∈ (runOps initStore ops).rows
          ↔ (i ∈ assignedFrom initStore ops ∧ i ∉ deletedIds ops)) := by
  intro h
  have h1 : (1 : Nat) ∈ (runOps initStore [Op.del 1, Op.add]).rows := by decide
  have h2 := (h [Op.del 1, Op.add] 1).mp h1
  have h3 : (1 : Nat) ∈ deletedIds [Op.del 1, Op.add] := by decide
  exact h2.2 h3

/-- C8 amended: provided every DELETE of the sequence targets an id already
assigned at that point, the final id set is exactly the assigned ids minus the
deleted ids; and deleting an id not present leaves the rows unchanged (silent
no-op). -/
theorem crud_ids_spec (ops : List Op) (hwf : wfOps initStore ops = true) (i : Nat) :
    (i ∈ (runOps initStore ops).rows
      ↔ (i ∈ assignedFrom initStore ops ∧ i ∉ deletedIds ops))
    ∧ (∀ s : Store, i ∉ s.rows → (applyOp s (Op.del i)).rows = s.rows) := by
  constructor
  · have hB : Bounded initStore := by
      intro j hj
      simp [initStore] at hj
    have h := mem_runOpsFrom hB hwf i
    rw [h]
    simp [initStore]
  · intro s hs
    simp only [applyOp]
    apply List.filter_eq_self.mpr
    intro j hj
    rw [decide_eq_true_eq]
    intro hji
    subst hji
    exact hs hj

/-- C8 witness: two INSERTs then `DELETE id=1` leave exactly id 2, and deleting
the absent id 2 from any store is a no-op. -/
theorem crud_ids_spec_witness :
    ((2 : Nat) ∈ (runOps initStore [Op.add, Op.add, Op.del 1]).rows
      ↔ ((2 : Nat) ∈ assignedFrom initStore [Op.add, Op.add, Op.del 1]
          ∧ (2 : Nat) ∉ deletedIds [Op.add, Op.add, Op.del 1]))
    ∧ (∀ s : Store, (2 : Nat) ∉ s.rows → (applyOp s (Op.del 2)).rows = s.rows) :=
  crud_ids_spec [Op.add, Op.add, Op.del 1] (by decide) 2

end SmartMoney
